import Mathlib

/-!
Verification development for the nix-eval-jobs core (coordinator/worker
protocol, work-stealing scheduler, accessor-path data model).

The definitions below are shallow embeddings of the C++ sources:
  * `src/accessor.cc` (shipped unnamed): `Accessor`, `AccessorPath`, their
    JSON codec (`accessorFromJson`, `AccessorPath.toJson`, ...);
  * `src/job.cc` / `src/job.hh`: `getJob` classification, `Drv`
    construction, the evaluator's `getDerivations` behaviour;
  * `src/msg.cc` / `src/msg.hh`: the framed messages (`CollectMsg`,
    `WorkJob` variants);
  * `src/nix-eval-jobs.cc`: the `worker` loop and the `collector`
    state machine (`wait_for_job`, `await_responses`, `save_proc`).

External collaborators (the nix evaluator, the nlohmann JSON text
serializer, pipes and processes) are modelled at the value level, as the
specification declares them out of scope: JSON values are a tree type
(`Json`), text dump/parse of the external serializer is assumed to be a
faithful inverse pair, pipe writes become lists of emitted frames, and
evaluation of a path inside the worker is an oracle function supplied as
a parameter.
-/

/-- JSON values as used by the program: numbers (the program only ever
builds integers; `unsigned long` indices are stored as non-negative
integers), strings, arrays and objects.  Booleans/null never occur in any
value this code builds, so they are omitted from the model. -/
inductive Json where
  | num (n : Int)
  | str (s : String)
  | arr (xs : List Json)
  | obj (kvs : List (String × Json))
deriving Repr

/-- An accessor, `src/accessor.hh`: either an `Index` into a list
(C++ `unsigned long val`) or an attribute `Name` (C++ `std::string val`). -/
inductive Accessor where
  | index (val : Nat)
  | name (val : String)
deriving DecidableEq, Repr

/-- An ordered sequence of accessors (`struct AccessorPath`, which wraps
`std::vector<std::unique_ptr<Accessor>> path`). -/
abbrev AccessorPath := List Accessor

/-- `Index::toJson` / `Name::toJson` (src/unnamed/part_002 lines 50-56):
an index serializes as its number, a name as its string. -/
def accessorToJson : Accessor → Json
  | .index v => .num (Int.ofNat v)
  | .name s => .str s

/-- `AccessorPath::toJson` (src/unnamed/part_002 lines 121-133): the JSON
array of the accessors' serializations. -/
def AccessorPath.toJson (p : AccessorPath) : Json :=
  .arr (p.map accessorToJson)

/-- Error kinds of the nix exception classes the program distinguishes.
In nix, `TypeError` derives from `EvalError`, so a `catch (EvalError &)`
also catches `TypeError`; `getJob`'s `catch (TypeError &)` does not catch
plain `EvalError`. -/
inductive ErrKind where
  | typeError
  | evalError
deriving DecidableEq, Repr

/-- A thrown nix error: its class and its message. -/
structure Err where
  kind : ErrKind
  msg : String
deriving DecidableEq, Repr

/-- `Index::Index(const json &)` (src/unnamed/part_002 lines 31-37):
`val = json` succeeds exactly when the JSON value is a number, using the
C++ `static_cast<unsigned long>` semantics (reduction mod 2^64) for the
stored int64; anything else throws a `TypeError`. -/
def indexFromJson : Json → Except Err Accessor
  | .num n => .ok (.index ((n.emod (2 ^ 64)).toNat))
  | j => .error ⟨.typeError, "could not make an index out of json: " ++ reprStr j⟩

/-- `Name::Name(const json &)` (src/unnamed/part_002 lines 39-46):
`val = json` succeeds for a string; an empty string raises inside the try
block and is re-thrown as the same `TypeError` (the `catch (...)` catches
the `EvalError` ``empty attribute name``). -/
def nameFromJson : Json → Except Err Accessor
  | .str s =>
    if s = "" then .error ⟨.typeError, "could not create an attrname out of json: " ++ reprStr (Json.str s)⟩
    else .ok (.name s)
  | j => .error ⟨.typeError, "could not create an attrname out of json: " ++ reprStr j⟩

/-- `accessorFromJson` (src/unnamed/part_002 lines 17-27): try `Index`,
then `Name`; if both fail, throw a `TypeError` combining the messages. -/
def accessorFromJson (j : Json) : Except Err Accessor :=
  match indexFromJson j with
  | .ok a => .ok a
  | .error e1 =>
    match nameFromJson j with
    | .ok a => .ok a
    | .error e2 =>
      .error ⟨.typeError, "could not make an accessor out of json: " ++ e1.msg ++ ", " ++ e2.msg⟩

/-- The JSON-processing part of `AccessorPath::AccessorPath(std::string &)`
(src/unnamed/part_002 lines 60-77): the string is first parsed by the
external `nlohmann::json::parse` (out of scope per the spec; assumed to be
the inverse of `dump`), then the resulting value must convert to
`std::vector<json>` (i.e. be an array) and each element goes through
`accessorFromJson`. -/
def accessorPathFromJson : Json → Except Err AccessorPath
  | .arr xs => xs.mapM accessorFromJson
  | j => .error ⟨.typeError, "could not make an accessor path out of json, expected a list of accessors: " ++ reprStr j⟩

/-- Well-formedness from the round-trip claim: a `Name` is a non-empty
string, and an `Index` fits the C++ `unsigned long` (it is non-negative by
construction, being a `Nat`). -/
def wellFormedAcc : Accessor → Prop
  | .index v => v < 2 ^ 64
  | .name s => s ≠ ""

instance : DecidablePred wellFormedAcc := fun a =>
  match a with
  | .index _ => inferInstanceAs (Decidable (_ < _))
  | .name _ => inferInstanceAs (Decidable (_ ≠ _))

/-! ## Job model (src/job.cc, src/job.hh)

The evaluator's values are modelled as already-forced trees.  A value
that `isDerivation` holds of (an attribute set with `type = "derivation"`)
is abbreviated by the `drv` constructor carrying the results of the
`DrvInfo` queries; function values (and hence a non-trivial
`autoCallFunction`) are not modelled, so auto-calling is the identity. -/

/-- The evaluator's per-derivation query results (`nix::DrvInfo`):
`queryName`, `querySystem`, `requireDrvPath` (already printed as a store
path string), and `queryOutputs(true)` where an output's store path may be
unknown (`std::optional`). -/
structure DrvInfo where
  name : String
  system : String
  drvPath : String
  outputs : List (String × Option String)
deriving DecidableEq, Repr

/-- `struct Drv` (src/job.hh lines 61-71): the immutable snapshot of a
leaf derivation.  The `meta` field is only populated under `--meta`,
which no claim touches; it is carried but never filled by the model. -/
structure Drv where
  name : String
  system : String
  drvPath : String
  outputs : List (String × String)
  meta : Option Json := none
deriving Repr

/-- Evaluator values, post-forcing. -/
inductive Value where
  | vInt (n : Int)
  | vStr (s : String)
  | vNull
  | vBool (b : Bool)
  | drv (d : DrvInfo)
  | attrs (kvs : List (String × Value))
  | list (xs : List Value)
deriving Repr

/-- `nix::showType` for the modelled value kinds. -/
def showType : Value → String
  | .vInt _ => "an integer"
  | .vStr _ => "a string"
  | .vNull => "null"
  | .vBool _ => "a Boolean"
  | .drv _ => "a set"
  | .attrs _ => "a set"
  | .list _ => "a list"

/-! The evaluator's `getDerivations` (nix `src/libexpr/get-drvs.cc`),
the external operation `Drvs::Drvs` calls:
  * a derivation yields itself;
  * an attribute set yields its directly-derivation attributes, recursing
    into an attribute that is itself an attribute set only when its
    `recurseForDerivations` attribute is the Boolean `true` (`forceBool`
    on a non-Boolean throws a `TypeError`); non-derivation scalar
    attributes are skipped silently, so an attribute set NEVER fails and
    may yield the empty list (e.g. `{}`);
  * a list yields, per element, the element if it is a derivation and
    otherwise the result of recursing into it (so a scalar list element
    throws);
  * any other kind throws a `TypeError`.
The `_combineChannels` nix-env hack and the enumeration order of
attributes (lexicographic in nix) are abstracted: order is the model
list's order, which no claim depends on. -/
mutual
/-- Toplevel dispatch of the evaluator's `getDerivations`; see the
comment above this `mutual` block. -/
def getDrvInfos : Value → Except Err (List DrvInfo)
  | .drv d => .ok [d]
  | .attrs kvs => attrsDrvInfos kvs
  | .list xs => listDrvInfos xs
  | _ =>
    .error ⟨.typeError, "expression does not evaluate to a derivation (or a set or list of those)"⟩

def attrsDrvInfos : List (String × Value) → Except Err (List DrvInfo)
  | [] => .ok []
  | (_, v) :: rest => do
    let here ←
      match v with
      | .drv d => pure [d]
      | .attrs kvs =>
        match kvs.lookup "recurseForDerivations" with
        | some (.vBool true) => getDrvInfos v
        | some (.vBool false) => pure []
        | some _ => .error ⟨.typeError, "value is not a Boolean while a Boolean was expected"⟩
        | none => pure []
      | _ => pure []
    let more ← attrsDrvInfos rest
    pure (here ++ more)

def listDrvInfos : List Value → Except Err (List DrvInfo)
  | [] => .ok []
  | x :: rest => do
    let here ←
      match x with
      | .drv d => pure [d]
      | _ => getDrvInfos x
    let more ← listDrvInfos rest
    pure (here ++ more)
end

/-- `Drv::Drv(EvalState &, DrvInfo &)` (src/job.cc lines 65-101): reject
`system == "unknown"` with an `EvalError`, keep exactly the outputs whose
store path is known, then snapshot name/system/drvPath.  (`--meta`
processing is not modelled; `meta` stays empty.) -/
def Drv.fromInfo (info : DrvInfo) : Except Err Drv :=
  if info.system = "unknown" then
    .error ⟨.evalError, "derivation must have a 'system' attribute"⟩
  else
    .ok { name := info.name, system := info.system, drvPath := info.drvPath,
          outputs := info.outputs.filterMap
            (fun kv => match kv.2 with | some p => some (kv.1, p) | none => none),
          meta := none }

/-- `Drvs::Drvs` (src/job.cc lines 38-45): run `getDerivations`, then
construct a `Drv` from every reported `DrvInfo`.  It succeeds whenever
`getDerivations` and all the `Drv` constructions succeed — the result
list may be empty. -/
def mkDrvs (v : Value) : Except Err (List Drv) := do
  let infos ← getDrvInfos v
  infos.mapM Drv.fromInfo

/-- `Job := Drvs | JobAttrs | JobList` (src/job.hh lines 53-124). -/
inductive Job where
  | drvs (ds : List Drv)
  | jobAttrs (v : Value)
  | jobList (v : Value)
deriving Repr

/-- `JobAttrs::JobAttrs` (src/job.cc lines 47-53): auto-call (identity in
this model), then require kind `nAttrs`, else `TypeError`. -/
def JobAttrs.make (v : Value) : Except Err Job :=
  match v with
  | .attrs _ => .ok (.jobAttrs v)
  | _ => .error ⟨.typeError, "wanted a JobAttrs, got " ++ showType v⟩

/-- `JobList::JobList` (src/job.cc lines 55-61): auto-call, then require
kind `nList`, else `TypeError`. -/
def JobList.make (v : Value) : Except Err Job :=
  match v with
  | .list _ => .ok (.jobList v)
  | _ => .error ⟨.typeError, "wanted a JobList, got " ++ showType v⟩

/-- `getJob` (src/job.cc lines 22-36): try `Drvs`, and on a `TypeError`
(only — nix `TypeError` is the subclass the `catch` names, so an
`EvalError` such as an unknown system escapes) try `JobAttrs`, then
`JobList`, and if all three fail with `TypeError` throw the final
`TypeError` naming the observed kind (the message's second "derivation"
is the source's own typo for "list"). -/
def getJob (v : Value) : Except Err Job :=
  match mkDrvs v with
  | .ok ds => .ok (.drvs ds)
  | .error e1 =>
    if e1.kind = ErrKind.typeError then
      match JobAttrs.make v with
      | .ok j => .ok j
      | .error e2 =>
        if e2.kind = ErrKind.typeError then
          match JobList.make v with
          | .ok j => .ok j
          | .error e3 =>
            if e3.kind = ErrKind.typeError then
              .error ⟨.typeError,
                "error creating job, expecting one of a derivation, an attrset or a derivation, got: "
                  ++ showType v⟩
            else .error e3
        else .error e2
    else .error e1

/-- `to_json(json &, const Drv &)` (src/job.cc lines 194-202): the leaf
output object.  (nlohmann objects iterate in sorted key order; the model
keeps insertion order, which no claim observes.) -/
def Drv.toJson (d : Drv) : Json :=
  .obj ([("name", .str d.name), ("system", .str d.system), ("drvPath", .str d.drvPath),
         ("outputs", .obj (d.outputs.map (fun kv => (kv.1, Json.str kv.2))))] ++
        (match d.meta with | some m => [("meta", m)] | none => []))

/-- `JobEvalResult := Drv | JobChildren` (src/job.hh lines 18-30). -/
inductive JobEvalResult where
  | drvResult (d : Drv)
  | childrenResult (cs : List Accessor)
deriving Repr

/-- `JobEvalResult::toJson`: a `Drv` serializes via `Drv::toJson`; a
`JobChildren` serializes as the PLAIN ARRAY of its accessors
(src/job.cc lines 185-192) — not as an object. -/
def JobEvalResult.toJson : JobEvalResult → Json
  | .drvResult d => d.toJson
  | .childrenResult cs => .arr (cs.map accessorToJson)

/-- `children` of a job (src/job.cc lines 129-156): attribute names (in
the enumeration order of the model value) for `JobAttrs`, indices
`0..n-1` for `JobList`. -/
def Job.children : Job → List Accessor
  | .drvs _ => []
  | .jobAttrs v =>
    match v with
    | .attrs kvs => kvs.map (fun kv => Accessor.name kv.1)
    | _ => []
  | .jobList v =>
    match v with
    | .list xs => (List.range xs.length).map Accessor.index
    | _ => []

/-- `eval` (src/job.cc lines 160-181 and src/job.hh lines 104-124):
`Drvs` yields its vector of `Drv` (the GC-root registration side effect
is out of this model); `JobAttrs`/`JobList` yield exactly one
`JobChildren` result. -/
def Job.eval : Job → List JobEvalResult
  | .drvs ds => ds.map JobEvalResult.drvResult
  | j => [.childrenResult j.children]

/-! ## Worker loop (src/nix-eval-jobs.cc lines 95-160) -/

/-- Requests arrive over the request pipe as raw lines; a C++
`std::string` is modelled as its list of characters. -/
abbrev Req := List Char

/-- The frames the worker writes on its response pipe: the literals
`next`, `done`, `restart`, or a dumped JSON value (result replies and
error replies). -/
inductive WFrame where
  | next
  | done
  | restart
  | jfr (j : Json)
deriving Repr

/-- The error reply frame `{"error": msg}` the worker's
`catch (EvalError &)` emits (lines 134-149); the message is the
ANSI-filtered diagnostic text (filtering is the oracle's business). -/
def errFrame (msg : String) : WFrame := .jfr (.obj [("error", .str msg)])

/-- Replace the value under key `k` or append the pair. -/
def setKey (k : String) (val : Json) : List (String × Json) → List (String × Json)
  | [] => [(k, val)]
  | (k0, v0) :: rest => if k0 = k then (k0, val) :: rest else (k0, v0) :: setKey k val rest

/-- `nlohmann::json::update`: merge the members of the argument object
into this object; it throws (`none` here) unless BOTH values are objects
— which is exactly what happens when a `JobChildren` result (a plain
array, see `JobEvalResult.toJson`) is merged into the `{"path": P}`
reply at line 127. -/
def Json.update? : Json → Json → Option Json
  | .obj base, .obj ov => some (.obj (ov.foldl (fun acc kv => setKey kv.1 kv.2 acc) base))
  | _, _ => none

/-- The per-request reply emission (lines 124-132): for each result of
`eval(job)`, copy the `{"path": P}` object, merge the result's JSON into
it (`reply.update(res->toJson())`), write the merged frame, and then
write `done` — the `writeLine(to.get(), "done")` sits INSIDE the loop
body.  A failing merge is an uncaught `nlohmann` exception: the Bool
records the crash (frames already written stay written), and nothing of
that result is written. -/
def emitResults (pathJson : Json) : List Json → List WFrame × Bool
  | [] => ([], false)
  | r :: rs =>
    match pathJson.update? r with
    | some merged =>
      let rest := emitResults pathJson rs
      (WFrame.jfr merged :: WFrame.done :: rest.1, rest.2)
    | none => ([], true)

/-- How a worker-loop run ends:
  * `exited` — the `exit` request broke the loop (then line 159 writes
    `restart`);
  * `memExited` — the RSS sample exceeded the threshold (same teardown);
  * `aborted` — a malformed request hit `abort()` at line 111 (nothing
    further is written);
  * `crashed` — an uncaught exception escaped the loop (no `restart`);
  * `starved` — the request list was exhausted while the worker blocks in
    `readLine` (the run is not over; nothing decided). -/
inductive WOut where
  | exited (fs : List WFrame)
  | memExited (fs : List WFrame)
  | aborted (fs : List WFrame)
  | crashed (fs : List WFrame)
  | starved (fs : List WFrame)
deriving Repr

/-- The worker steady-state loop (lines 100-157) over a finite list of
incoming request lines.  `evalReq` is the oracle for the try-block of
lines 117-133 applied to the text after `"do "`: it returns either the
thrown `EvalError`'s filtered message, or the `{"path": P}` reply object
together with the serialized results of `eval(walk(P))`.  `rssHigh i`
tells whether the `getrusage` sample after iteration `i` exceeds
`maxMemorySize * 1024` (line 155).  `acc` accumulates written frames. -/
def workerGo (evalReq : Req → Except String (Json × List Json)) (rssHigh : Nat → Bool) :
    List Req → Nat → List WFrame → WOut
  | [], _, acc => .starved (acc ++ [WFrame.next])
  | s :: rest, i, acc =>
    let acc2 := acc ++ [WFrame.next]
    if s = "exit".toList then .exited (acc2 ++ [WFrame.restart])
    else if s.take 3 = "do ".toList then
      match evalReq (s.drop 3) with
      | .error msg =>
        let acc3 := acc2 ++ [errFrame msg]
        if rssHigh i then .memExited (acc3 ++ [WFrame.restart])
        else workerGo evalReq rssHigh rest (i + 1) acc3
      | .ok (pathJson, results) =>
        let er := emitResults pathJson results
        let acc3 := acc2 ++ er.1
        if er.2 then .crashed acc3
        else if rssHigh i then .memExited (acc3 ++ [WFrame.restart])
        else workerGo evalReq rssHigh rest (i + 1) acc3
    else .aborted acc2

/-- A whole worker run from the top of the loop. -/
def workerRun (evalReq : Req → Except String (Json × List Json)) (rssHigh : Nat → Bool)
    (reqs : List Req) : WOut :=
  workerGo evalReq rssHigh reqs 0 []

/-- `CollectMsg := CollectExit | CollectDo` (src/msg.hh). -/
inductive CMsg where
  | exit
  | doPath (p : AccessorPath)
deriving DecidableEq, Repr

/-- The request line `CollectMsg::send` writes: the literal `exit`, or
`"do "` followed by the dumped path JSON.  The external text dump is a
parameter — no property below depends on its output. -/
def CMsg.wire (dumpPath : AccessorPath → Req) : CMsg → Req
  | .exit => "exit".toList
  | .doPath p => "do ".toList ++ dumpPath p

/-! ## Collector (src/nix-eval-jobs.cc lines 162-320) -/

/-- `WorkMsg := WorkRestart | WorkNext | WorkError` (src/msg.hh lines
189-218), the frames `wait_for_worker` expects. -/
inductive WorkMsg where
  | restartMsg
  | nextMsg
  | errorW (detail : String)
deriving DecidableEq, Repr

/-- `parseWorkMsg` (src/msg.cc lines 44-71): try `WorkRestart` (the
literal `restart`), then `WorkNext` (the literal `next`), then
`WorkError`.  `WorkError::WorkError` (lines 118-126) merely requires the
line to parse as JSON: it sets `detail` from the `error` member IF
PRESENT (a non-string `error` value fails the `std::string` assignment)
and otherwise succeeds with an EMPTY detail — so ANY JSON frame, e.g. a
worker reply object, parses as a `WorkError`.  The literal `done` is not
JSON, so it fails all three and `parseWorkMsg` throws. -/
def parseWorkMsg : WFrame → Except Err WorkMsg
  | .restart => .ok .restartMsg
  | .next => .ok .nextMsg
  | .done => .error ⟨.typeError, "could not parse WorkMsg: expecting \"restart\", expecting \"next\", could not parse WorkError as json"⟩
  | .jfr j =>
    match j with
    | .obj kvs =>
      match kvs.lookup "error" with
      | some (.str s) => .ok (.errorW s)
      | some _ => .error ⟨.typeError, "could not parse WorkMsg: expecting \"restart\", expecting \"next\", could not parse WorkError as json"⟩
      | none => .ok (.errorW "")
    | _ => .ok (.errorW "")

/-- The `HandleWork` dispatch of `wait_for_worker`
(src/nix-eval-jobs.cc lines 201-212): `restart` drops the worker and
loops, `next` proceeds to wait_for_job, and an error —
INCLUDING the empty-detail `WorkError` that any stray reply object
parses as — throws `worker error: detail`. -/
inductive WFWOut where
  | dropWorker
  | toWaitForJob
  | fatalW (msg : String)
deriving DecidableEq, Repr

/-- The dispatch function for `wait_for_worker`. -/
def waitForWorkerStep : WorkMsg → WFWOut
  | .restartMsg => .dropWorker
  | .nextMsg => .toWaitForJob
  | .errorW detail => .fatalW ("worker error: " ++ detail)

/-- `WorkJob := WorkDrv | WorkChildren | WorkDone | WorkError`
(src/msg.hh lines 220-281), as dispatched by `handle(HandleJob...)`. -/
inductive WorkJob where
  | drvMsg (d : Drv) (p : AccessorPath)
  | childrenMsg (p : AccessorPath) (cs : List Accessor)
  | doneMsg
  | errorMsg (detail : String)

/-- The shared scheduler state `struct State` (lines 162-167): `todo`
and `active` are `std::set<json>` of path serializations, modelled
structurally as duplicate-free lists of `AccessorPath` (`std::set`
iteration order is abstracted to list order; no claim depends on which
element `begin()` denotes); `exc` records whether the
`std::exception_ptr` has been set. -/
structure SchedState where
  todo : List AccessorPath
  active : List AccessorPath
  exc : Bool
deriving DecidableEq, Repr

/-- `std::set::insert`: add the element unless it is already present. -/
def insertP (p : AccessorPath) (l : List AccessorPath) : List AccessorPath :=
  if p ∈ l then l else p :: l

/-- The jump labels of `wait_for_job` (line 171:
`finished | awaitResponsesJ | waitForJobJ | errUnsetJ`). -/
inductive WFJLabel where
  | finished
  | waitForJobJ
  | awaitResponsesJ
  | errUnsetJ
deriving DecidableEq, Repr

/-- The jump labels of `await_responses` (line 172:
`awaitResponses | saveProc | errUnsetR`).  `saveProc` stores the worker
back into `proc_` and jumps to `wait_for_worker` (lines 311-313), i.e.
the worker is retained and the coordinator returns to await_worker. -/
inductive ARLabel where
  | awaitResponses
  | saveProc
  | errUnsetR
deriving DecidableEq, Repr

/-- One pass of the `wait_for_job` critical section (lines 221-253),
returning the request frames sent to the worker (in order), the new
scheduler state, and the jump taken by the `switch`.  The body is
faithful to the source's THREE statements in sequence:
first `if ((todo.empty() && active.empty()) || exc)` sends `exit` and
sets the jump to `finished`; then — with no `else` — `if (!todo.empty())`
leases `*todo.begin()` into `active`, sends `do`, and OVERWRITES the jump
with `awaitResponsesJ`, else waits on the condition variable and
overwrites the jump with `waitForJobJ`.  (Line 237 reads `*begin` after
the `erase`, an invalidated iterator; the model uses the leased path's
value, which is what the preceding `current = *begin` snapshot holds.) -/
def waitForJobStep (s : SchedState) : List CMsg × SchedState × WFJLabel :=
  let r1 : List CMsg × WFJLabel :=
    if (s.todo.isEmpty && s.active.isEmpty) || s.exc then ([CMsg.exit], .finished)
    else ([], .errUnsetJ)
  match s.todo with
  | p :: rest =>
    (r1.1 ++ [CMsg.doPath p],
     { todo := rest, active := insertP p s.active, exc := s.exc },
     .awaitResponsesJ)
  | [] => (r1.1, s, .waitForJobJ)

/-- The result of one `await_responses` dispatch: updated scheduler
state, JSON lines printed to stdout, whether `wakeup.notify_all()` ran,
and the jump taken. -/
structure ARStep where
  sched : SchedState
  printed : List Json
  notified : Bool
  jump : ARLabel
deriving Repr

/-- Either a normal `await_responses` step or a thrown fatal error. -/
inductive AROut where
  | okStep (r : ARStep)
  | fatal (msg : String)
deriving Repr

/-- The `HandleJob` dispatch of `await_responses` (lines 269-302),
exactly as the four lambdas do it:
  * `.drv` (lines 270-282): print `to_json(msg.drv)` (the drv WITHOUT the
    path), erase `msg.path` from `active`, notify, keep reading
    (`awaitResponses`);
  * `.children` (lines 283-295): for each child insert
    `msg.path ++ [child]` into `todo`; no notify, no erase of the parent;
    jump `saveProc`;
  * `.done` (lines 296-298): nothing but the jump `saveProc`;
  * `.error` (lines 299-301): `throw Error("worker error: %s", detail)`. -/
def awaitResponsesStep (m : WorkJob) (s : SchedState) : AROut :=
  match m with
  | .drvMsg d p =>
    .okStep ⟨{ s with active := s.active.erase p }, [Drv.toJson d], true, .awaitResponses⟩
  | .childrenMsg p cs =>
    .okStep ⟨{ s with todo := cs.foldl (fun t c => insertP (p ++ [c]) t) s.todo },
      [], false, .saveProc⟩
  | .doneMsg => .okStep ⟨s, [], false, .saveProc⟩
  | .errorMsg detail => .fatal ("worker error: " ++ detail)

/-- The collector thread's outermost `catch (...)` (lines 315-319): a
thrown error sets `state->exc`, notifies all, and the thread returns
(`none` — no further jump).  A normal step passes its state, notify flag
and jump through. -/
def collectorCatch (m : WorkJob) (s : SchedState) : SchedState × Bool × Option ARLabel :=
  match awaitResponsesStep m s with
  | .okStep r => (r.sched, r.notified, some r.jump)
  | .fatal _ => ({ s with exc := true }, true, none)

/-! ## Global scheduler transition system (claim C7)

The composed system of `initState`, the coordinator threads and their
workers, restricted to the lock-protected mutations of `(todo, active)`.
Two ghost components track what the control flow knows: `expanded` is the
set of paths whose children frame has been handled (the root `[]` is
expanded by the bootstrap `initState`), and `held` is the multiset of
paths currently leased by some coordinator sitting in `await_responses`.
The transitions are deliberately a SUPERSET of the real interleavings
(e.g. `drvErase` may erase any path — the real handler erases
`msg.path`, which for parsed `WorkDrv` frames is even the empty path);
the invariant is proved for all of them. -/

/-- Global state: the two shared sets plus the ghost components. -/
structure GState where
  todo : List AccessorPath
  active : List AccessorPath
  expanded : List AccessorPath
  held : List AccessorPath
deriving DecidableEq, Repr

/-- The lock-protected transitions:
  * `lease` — `wait_for_job` lines 231-239: pop a path from `todo`,
    insert it into `active` (one critical section), the coordinator now
    holds it;
  * `drvErase` — the `.drv` handler lines 270-282: erase a path from
    `active` (the coordinator keeps reading, so it keeps holding);
  * `childrenStep` — the `.children` handler lines 283-295: a coordinator
    holding `p` inserts `p ++ [c]` into `todo` for each child `c`, then
    leaves `await_responses` (jump `saveProc`); ghost: `p` becomes
    expanded;
  * `doneStep` — the `.done` handler lines 296-298: the coordinator
    leaves `await_responses` with no state change. -/
inductive SchedStep : GState → GState → Prop where
  | lease (s t : GState) (p : AccessorPath) (hp : p ∈ s.todo)
      (ht : t = ⟨s.todo.erase p, insertP p s.active, s.expanded, p :: s.held⟩) :
      SchedStep s t
  | drvErase (s t : GState) (q : AccessorPath)
      (ht : t = ⟨s.todo, s.active.erase q, s.expanded, s.held⟩) :
      SchedStep s t
  | childrenStep (s t : GState) (p : AccessorPath) (cs : List Accessor) (hp : p ∈ s.held)
      (ht : t = ⟨cs.foldl (fun l c => insertP (p ++ [c]) l) s.todo, s.active,
        insertP p s.expanded, s.held.erase p⟩) :
      SchedStep s t
  | doneStep (s t : GState) (p : AccessorPath) (hp : p ∈ s.held)
      (ht : t = ⟨s.todo, s.active, s.expanded, s.held.erase p⟩) :
      SchedStep s t

/-- The state after `initState` (lines 351-394) seeded `todo`: the
bootstrap's children frame for the root yields one singleton path per
top-level accessor (`state->todo.insert(std::vector({a->toJson()}))`,
line 382, a `std::set` insert per accessor); `active` is empty, nothing
is leased, and the root counts as expanded. -/
def initGState (accs : List Accessor) : GState :=
  ⟨accs.foldl (fun t a => insertP [a] t) [], [], [[]], []⟩

/-- The inductive invariant for C7.  `ta` is the claimed disjointness;
the remaining fields are the strengthening that makes it inductive:
a non-root path is only ever discovered (present in `todo`, `active` or
`expanded`) after its parent expanded; expanded paths are never held or
queued again; held paths are unique, off `todo` and have expanded
parents; and the `std::set`s hold no duplicates. -/
structure SchedInv (s : GState) : Prop where
  ta : ∀ p, p ∈ s.todo → p ∉ s.active
  disc : ∀ p a, (p ++ [a] ∈ s.todo ∨ p ++ [a] ∈ s.active ∨ p ++ [a] ∈ s.expanded) →
    p ∈ s.expanded
  heldNotExp : ∀ p, p ∈ s.held → p ∉ s.expanded
  todoNotExp : ∀ p, p ∈ s.todo → p ∉ s.expanded
  heldNotTodo : ∀ p, p ∈ s.held → p ∉ s.todo
  heldNodup : s.held.Nodup
  heldParentExp : ∀ p a, p ++ [a] ∈ s.held → p ∈ s.expanded
  todoNodup : s.todo.Nodup
  activeNodup : s.active.Nodup

/-- Count the `done` frames in a frame list. -/
def countDone : List WFrame → Nat
  | [] => 0
  | .done :: fs => countDone fs + 1
  | _ :: fs => countDone fs

/-- The frames a run wrote, whatever its ending. -/
def framesOf : WOut → List WFrame
  | .exited fs => fs
  | .memExited fs => fs
  | .aborted fs => fs
  | .crashed fs => fs
  | .starved fs => fs

/-! Concrete scenario data used by the per-claim evaluation theorems. -/

/-- A first derivation of a two-derivation `Drvs` job (a node with
`recurseForDerivations`, scenario for claim C3). -/
def d1C3 : Drv := ⟨"d1", "x86_64-linux", "/nix/store/d1.drv", [("out", "/nix/store/d1-out")], none⟩

/-- The second derivation of that job. -/
def d2C3 : Drv := ⟨"d2", "x86_64-linux", "/nix/store/d2.drv", [("out", "/nix/store/d2-out")], none⟩

/-- The two-derivation job itself. -/
def jobC3 : Job := .drvs [d1C3, d2C3]

/-- The `{"path": ["a"]}` reply skeleton for path `["a"]`. -/
def pjC3 : Json := .obj [("path", .arr [.str "a"])]

/-- Worker oracle for claim C3: every `do` request walks to `jobC3`,
whose serialized `eval` results feed the reply loop. -/
def oracleC3 : Req → Except String (Json × List Json) :=
  fun _ => .ok (pjC3, jobC3.eval.map JobEvalResult.toJson)

/-- The good derivation `b` of spec scenario 4 (claim C1). -/
def drvB : Drv := ⟨"b", "x86_64-linux", "/nix/store/b.drv", [("out", "/nix/store/b-out")], none⟩

/-- Worker oracle for spec scenario 4 (claim C1): walking `["a"]` throws
`boom`, walking anything else yields the leaf `drvB`. -/
def oracleC1 : Req → Except String (Json × List Json) :=
  fun r =>
    if r = "[\"a\"]".toList then .error "error: boom"
    else .ok (.obj [("path", .arr [.str "b"])], [Drv.toJson drvB])

theorem accessor_roundtrip (a : Accessor) (h : wellFormedAcc a) :
    accessorFromJson (accessorToJson a) = .ok a := by
  cases a with
  | index v =>
    have hv : v < 2 ^ 64 := h
    simp only [accessorToJson, accessorFromJson, indexFromJson]
    have h2 : Int.ofNat v < (2 : Int) ^ 64 := by
      have := Int.ofNat_lt.mpr hv
      simpa using this
    have h1 : (Int.ofNat v).emod (2 ^ 64) = Int.ofNat v :=
      Int.emod_eq_of_lt (Int.ofNat_nonneg v) h2
    rw [h1]
    rfl
  | name s =>
    have hs : s ≠ "" := h
    simp [accessorToJson, accessorFromJson, indexFromJson, nameFromJson, hs]

/-- C8: parsing the JSON serialization of a well-formed accessor path
yields the same path: `accessorPathFromJson (p.toJson) = ok p` whenever
every `Name` is non-empty and every `Index` is in `unsigned long` range
(non-negativity is inherent).  Together with the assumed
`parse ∘ dump = id` of the external serializer this is the claim's
`parse_path(stringify(p)) = p`. -/
theorem c8_accessor_path_roundtrip (p : AccessorPath)
    (h : ∀ a ∈ p, wellFormedAcc a) :
    accessorPathFromJson (AccessorPath.toJson p) = .ok p := by
  induction p with
  | nil => rfl
  | cons a rest ih =>
    have ha : wellFormedAcc a := h a (List.mem_cons_self a rest)
    have hrest : ∀ b ∈ rest, wellFormedAcc b := fun b hb => h b (List.mem_cons_of_mem a hb)
    have ih' := ih hrest
    simp only [AccessorPath.toJson, List.map_cons, accessorPathFromJson, List.mapM_cons] at ih' ⊢
    rw [accessor_roundtrip a ha]
    simp only [bind, Except.bind]
    rw [ih']
    rfl

/-- Witness for C8 at a concrete path. -/
theorem c8_witness :
    (∀ a ∈ ([.name "packages", .index 3, .name "x"] : AccessorPath), wellFormedAcc a) ∧
      accessorPathFromJson (AccessorPath.toJson [.name "packages", .index 3, .name "x"]) =
        .ok [.name "packages", .index 3, .name "x"] :=
  ⟨by decide, c8_accessor_path_roundtrip _ (by decide)⟩

/-! ## Helper lemmas -/

theorem mem_insertP {q p : AccessorPath} {l : List AccessorPath} :
    q ∈ insertP p l ↔ q = p ∨ q ∈ l := by
  unfold insertP
  by_cases h : p ∈ l
  · simp only [if_pos h]
    constructor
    · exact fun hq => Or.inr hq
    · rintro (rfl | hq)
      · exact h
      · exact hq
  · simp only [if_neg h, List.mem_cons]

theorem nodup_insertP {p : AccessorPath} {l : List AccessorPath} (h : l.Nodup) :
    (insertP p l).Nodup := by
  unfold insertP
  by_cases hp : p ∈ l
  · simpa [if_pos hp] using h
  · simpa [if_neg hp] using ⟨hp, h⟩

theorem mem_foldl_insertP {q : AccessorPath} {cs : List Accessor}
    {f : Accessor → AccessorPath} {l0 : List AccessorPath} :
    q ∈ cs.foldl (fun l c => insertP (f c) l) l0 ↔ q ∈ l0 ∨ ∃ c ∈ cs, q = f c := by
  induction cs generalizing l0 with
  | nil => simp
  | cons c rest ih =>
    simp only [List.foldl_cons, ih, mem_insertP, List.mem_cons]
    constructor
    · rintro ((rfl | hq) | ⟨c', hc', rfl⟩)
      · exact Or.inr ⟨c, Or.inl rfl, rfl⟩
      · exact Or.inl hq
      · exact Or.inr ⟨c', Or.inr hc', rfl⟩
    · rintro (hq | ⟨c', (rfl | hc'), rfl⟩)
      · exact Or.inl (Or.inr hq)
      · exact Or.inl (Or.inl rfl)
      · exact Or.inr ⟨c', hc', rfl⟩

theorem nodup_foldl_insertP {cs : List Accessor} {f : Accessor → AccessorPath}
    {l0 : List AccessorPath} (h : l0.Nodup) :
    (cs.foldl (fun l c => insertP (f c) l) l0).Nodup := by
  induction cs generalizing l0 with
  | nil => simpa using h
  | cons c rest ih => exact ih (nodup_insertP h)

theorem concat_singleton_inj {p q : AccessorPath} {a b : Accessor}
    (h : p ++ [a] = q ++ [b]) : p = q ∧ a = b := by
  have := List.append_inj' h rfl
  exact ⟨this.1, by simpa using this.2⟩

/-! ## Claim C2 — classification order and the Drvs success condition -/

/-- C2, counterexample: the claim that "`Drvs` succeeds exactly when the
evaluator's get-derivations operation returns a NON-EMPTY set" is false:
on the empty attribute set `{}`, `getDerivations` succeeds with the empty
set (it never throws for an attribute set) and `Drvs::Drvs` succeeds all
the same, because `Drvs::Drvs` (src/job.cc lines 38-45) never checks the
result for emptiness. -/
theorem c2_drvs_succeeds_on_empty :
    ¬ (∀ v : Value, (∃ ds, mkDrvs v = .ok ds) ↔ (∃ ds, getDrvInfos v = .ok ds ∧ ds ≠ [])) := by
  intro hcl
  obtain ⟨ds, hds, hne⟩ := (hcl (Value.attrs [])).mp ⟨[], rfl⟩
  have h0 : getDrvInfos (Value.attrs []) = .ok ([] : List DrvInfo) := rfl
  rw [h0] at hds
  cases hds
  exact hne rfl

/-- C2, amended: `getJob` tries the three constructors in the fixed
order `Drvs`, `JobAttrs`, `JobList` and the first that succeeds wins;
`Drvs` succeeds exactly when the get-derivations operation (and the
subsequent `Drv` constructions) succeed — the returned set may be EMPTY;
an `EvalError` (e.g. unknown system) escapes the `catch (TypeError &)`
and fails `getJob` outright; and if all three constructors fail with
`TypeError`, `getJob` fails with a `TypeError` naming the observed
kind. -/
theorem c2_classification_order :
    (∀ v ds, mkDrvs v = .ok ds → getJob v = .ok (.drvs ds)) ∧
    (∀ v e kvs, v = Value.attrs kvs → mkDrvs v = .error e → e.kind = ErrKind.typeError →
      getJob v = .ok (.jobAttrs v)) ∧
    (∀ v e xs, v = Value.list xs → mkDrvs v = .error e → e.kind = ErrKind.typeError →
      getJob v = .ok (.jobList v)) ∧
    (∀ v e, mkDrvs v = .error e → e.kind = ErrKind.typeError →
      (∀ kvs, v ≠ Value.attrs kvs) → (∀ xs, v ≠ Value.list xs) →
      getJob v = .error ⟨.typeError,
        "error creating job, expecting one of a derivation, an attrset or a derivation, got: "
          ++ showType v⟩) ∧
    (∀ v e, mkDrvs v = .error e → e.kind = ErrKind.evalError → getJob v = .error e) := by
  refine ⟨?_, ?_, ?_, ?_, ?_⟩
  · intro v ds h
    simp [getJob, h]
  · intro v e kvs hv h hk
    subst hv
    simp [getJob, h, hk, JobAttrs.make]
  · intro v e xs hv h hk
    subst hv
    simp [getJob, h, hk, JobAttrs.make, JobList.make]
  · intro v e h hk hna hnl
    cases v with
    | attrs kvs => exact absurd rfl (hna kvs)
    | list xs => exact absurd rfl (hnl xs)
    | vInt n => simp [getJob, h, hk, JobAttrs.make, JobList.make]
    | vStr s => simp [getJob, h, hk, JobAttrs.make, JobList.make]
    | vNull => simp [getJob, h, hk, JobAttrs.make, JobList.make]
    | vBool b => simp [getJob, h, hk, JobAttrs.make, JobList.make]
    | drv d => simp [getJob, h, hk, JobAttrs.make, JobList.make]
  · intro v e h hk
    simp [getJob, h, hk]

/-- Witness for C2 at concrete inputs: a derivation value classifies as
`Drvs` with its one derivation; an integer fails all three constructors
and yields the `TypeError` naming `an integer`. -/
theorem c2_witness :
    getJob (Value.drv ⟨"hello", "x86_64-linux", "/nix/store/abc-hello.drv",
        [("out", some "/nix/store/abc-hello")]⟩) =
      .ok (.drvs [⟨"hello", "x86_64-linux", "/nix/store/abc-hello.drv",
        [("out", "/nix/store/abc-hello")], none⟩]) ∧
    getJob (Value.vInt 3) = .error ⟨.typeError,
      "error creating job, expecting one of a derivation, an attrset or a derivation, got: "
        ++ showType (Value.vInt 3)⟩ :=
  ⟨c2_classification_order.1 _ _ rfl,
   c2_classification_order.2.2.2.1 _ ⟨.typeError,
      "expression does not evaluate to a derivation (or a set or list of those)"⟩ rfl rfl
      (fun _ h => Value.noConfusion h) (fun _ h => Value.noConfusion h)⟩

/-! ## Claim C4 — what the done handler actually does -/

/-- C4: the claim says that on a `done` frame the coordinator removes the
leased path from `active`, notifies the condition variable, retains its
worker and returns to await_worker.  The code's `.done` handler
(src/nix-eval-jobs.cc lines 296-298) only sets the jump to `saveProc`
(retain the worker, go back to `wait_for_worker`, lines 311-313): it
does NOT erase anything from `active` and does NOT notify — shown here
both in general (the handler returns the scheduler state unchanged, with
`notified = false`) and at the failing input, where the leased path
`["a"]` is still in `active` afterwards.  The erase-and-notify the claim
describes happens only in the `.drv` handler. -/
theorem c4_done_handler_leaves_active :
    (∀ s : SchedState,
      awaitResponsesStep WorkJob.doneMsg s = .okStep ⟨s, [], false, ARLabel.saveProc⟩) ∧
    awaitResponsesStep WorkJob.doneMsg ⟨[[Accessor.name "b"]], [[Accessor.name "a"]], false⟩ =
      .okStep ⟨⟨[[Accessor.name "b"]], [[Accessor.name "a"]], false⟩, [], false,
        ARLabel.saveProc⟩ ∧
    [Accessor.name "a"] ∈ ([[Accessor.name "a"]] : List AccessorPath) :=
  ⟨fun _ => rfl, rfl, by decide⟩

/-! ## Claim C5 — what the children handler actually does -/

/-- C5, counterexample: at the concrete input — coordinator leased
`["a"]`, children frame with children `b` and `c` — the handler inserts
`["a","b"]` and `["a","c"]` into `todo` and leaves `["a"]` in `active`,
but it does NOT notify (`notified = false`, there is no
`wakeup.notify_all()` in the `.children` lambda, lines 283-295) and it
does NOT continue reading responses: the jump is `saveProc`, not
`awaitResponses`.  This refutes the claim's "notifies the waiting
coordinators ... and continues reading further response frames". -/
theorem c5_children_handler_no_notify :
    awaitResponsesStep
        (WorkJob.childrenMsg [Accessor.name "a"] [Accessor.name "b", Accessor.name "c"])
        ⟨[], [[Accessor.name "a"]], false⟩ =
      .okStep ⟨⟨[[Accessor.name "a", Accessor.name "c"], [Accessor.name "a", Accessor.name "b"]],
        [[Accessor.name "a"]], false⟩, [], false, ARLabel.saveProc⟩ ∧
    ¬ ∃ r, awaitResponsesStep
        (WorkJob.childrenMsg [Accessor.name "a"] [Accessor.name "b", Accessor.name "c"])
        ⟨[], [[Accessor.name "a"]], false⟩ = .okStep r ∧
        r.notified = true ∧ r.jump = ARLabel.awaitResponses := by
  refine ⟨rfl, ?_⟩
  rintro ⟨r, hr, hn, hj⟩
  have h0 : awaitResponsesStep
      (WorkJob.childrenMsg [Accessor.name "a"] [Accessor.name "b", Accessor.name "c"])
      ⟨[], [[Accessor.name "a"]], false⟩ =
    AROut.okStep ⟨⟨[[Accessor.name "a", Accessor.name "c"],
        [Accessor.name "a", Accessor.name "b"]],
      [[Accessor.name "a"]], false⟩, [], false, ARLabel.saveProc⟩ := rfl
  rw [h0] at hr
  cases hr
  simp at hn

/-- C5, amended: on a children frame for leased path `p`, the coordinator
inserts `p ++ [child]` into `todo` for every child accessor of the frame
(under the lock, while `p` is still in `active` — so every discovered
child is enqueued before `p` could ever be released), does not remove `p`
from `active`, prints nothing — but it does NOT notify the condition
variable, and it does not keep reading: it jumps to `save_proc` (retain
the worker, back to await_worker). -/
theorem c5_children_inserted_saveproc (p : AccessorPath) (cs : List Accessor) (s : SchedState) :
    awaitResponsesStep (WorkJob.childrenMsg p cs) s =
      .okStep ⟨⟨cs.foldl (fun t c => insertP (p ++ [c]) t) s.todo, s.active, s.exc⟩,
        [], false, ARLabel.saveProc⟩ ∧
    (∀ c ∈ cs, p ++ [c] ∈ cs.foldl (fun t c => insertP (p ++ [c]) t) s.todo) ∧
    (∀ q ∈ s.todo, q ∈ cs.foldl (fun t c => insertP (p ++ [c]) t) s.todo) :=
  ⟨rfl,
   fun c hc => mem_foldl_insertP.mpr (Or.inr ⟨c, hc, rfl⟩),
   fun _ hq => mem_foldl_insertP.mpr (Or.inl hq)⟩

/-- Witness for C5 (amended) at a concrete frame. -/
theorem c5_witness :
    ([Accessor.name "a", Accessor.name "b"] ∈
      ([Accessor.name "b", Accessor.name "c"] : List Accessor).foldl
        (fun t c => insertP ([Accessor.name "a"] ++ [c]) t) ([] : List AccessorPath)) ∧
    awaitResponsesStep
        (WorkJob.childrenMsg [Accessor.name "a"] [Accessor.name "b", Accessor.name "c"])
        ⟨[], [], false⟩ =
      .okStep ⟨⟨[[Accessor.name "a", Accessor.name "c"], [Accessor.name "a", Accessor.name "b"]],
        [], false⟩, [], false, ARLabel.saveProc⟩ :=
  ⟨(c5_children_inserted_saveproc [Accessor.name "a"] [Accessor.name "b", Accessor.name "c"]
      ⟨[], [], false⟩).2.1 (Accessor.name "b") (by decide),
   (c5_children_inserted_saveproc [Accessor.name "a"] [Accessor.name "b", Accessor.name "c"]
      ⟨[], [], false⟩).1⟩

/-! ## Claim C6 — the finished jump is unreachable -/

/-- C6: the claim says a coordinator that observes `exc` in await_job
sends `exit` and RETURNS, never leasing a further path, and that a
coordinator terminates exactly when `todo ∪ active = ∅` or `exc` is set.
In the code (src/nix-eval-jobs.cc lines 221-253), the first `if` does
send `exit` and set the jump to `finished` — but the following
`if (!todo.empty()) ... else ...` is not guarded by an `else` and
OVERWRITES the jump in both branches, so:
  * with `exc` set and `todo = {["a"]}` the coordinator sends `exit` AND
    then leases `["a"]` into `active`, sends `do ["a"]`, and proceeds to
    await_responses (first conjunct);
  * with `todo = active = ∅` it sends `exit` and then waits on the
    condition variable instead of returning (second conjunct);
  * in no state at all does the `switch` see `finished` — the
    `case finished: return` at line 248 is dead code (third conjunct). -/
theorem c6_exit_then_lease_despite_exc :
    waitForJobStep ⟨[[Accessor.name "a"]], [], true⟩ =
      ([CMsg.exit, CMsg.doPath [Accessor.name "a"]],
       ⟨[], [[Accessor.name "a"]], true⟩, WFJLabel.awaitResponsesJ) ∧
    waitForJobStep ⟨[], [], false⟩ = ([CMsg.exit], ⟨[], [], false⟩, WFJLabel.waitForJobJ) ∧
    ∀ s : SchedState, (waitForJobStep s).2.2 ≠ WFJLabel.finished := by
  refine ⟨rfl, rfl, ?_⟩
  rintro ⟨todo, active, exc⟩
  cases todo <;> simp [waitForJobStep]

/-! ## Worker-loop lemmas -/

theorem emitResults_no_restart (pj : Json) (rs : List Json) :
    WFrame.restart ∉ (emitResults pj rs).1 := by
  induction rs with
  | nil => simp [emitResults]
  | cons r rest ih =>
    simp only [emitResults]
    cases h : pj.update? r with
    | some merged => simp [ih]
    | none => simp

theorem workerGo_terminal_restart (evalReq : Req → Except String (Json × List Json))
    (rssHigh : Nat → Bool) :
    ∀ (reqs : List Req) (i : Nat) (acc : List WFrame) (fs : List WFrame),
      (workerGo evalReq rssHigh reqs i acc = .exited fs ∨
        workerGo evalReq rssHigh reqs i acc = .memExited fs) →
      fs.getLast? = some WFrame.restart := by
  intro reqs
  induction reqs with
  | nil =>
    intro i acc fs h
    rcases h with h | h <;> simp [workerGo] at h
  | cons s rest ih =>
    intro i acc fs h
    by_cases he : s = "exit".toList
    · rcases h with h | h
      · simp only [workerGo, if_pos he] at h
        cases h
        exact List.getLast?_concat _
      · simp only [workerGo, if_pos he] at h
        cases h
    · by_cases hdo : s.take 3 = "do ".toList
      · cases ho : evalReq (s.drop 3) with
        | error m =>
          by_cases hr : rssHigh i
          · rcases h with h | h <;>
              simp only [workerGo, if_neg he, if_pos hdo, ho, if_pos hr] at h
            · cases h
            · cases h
              exact List.getLast?_concat _
          · rcases h with h | h <;>
              simp only [workerGo, if_neg he, if_pos hdo, ho, if_neg hr] at h
            · exact ih _ _ _ (Or.inl h)
            · exact ih _ _ _ (Or.inr h)
        | ok pr =>
          by_cases hcrash : (emitResults pr.1 pr.2).2
          · rcases h with h | h <;>
              simp only [workerGo, if_neg he, if_pos hdo, ho, if_pos hcrash] at h
            · cases h
            · cases h
          · by_cases hr : rssHigh i
            · rcases h with h | h <;>
                simp only [workerGo, if_neg he, if_pos hdo, ho, if_neg hcrash, if_pos hr] at h
              · cases h
              · cases h
                exact List.getLast?_concat _
            · rcases h with h | h <;>
                simp only [workerGo, if_neg he, if_pos hdo, ho, if_neg hcrash, if_neg hr] at h
              · exact ih _ _ _ (Or.inl h)
              · exact ih _ _ _ (Or.inr h)
      · rcases h with h | h <;> simp only [workerGo, if_neg he, if_neg hdo] at h
        · cases h
        · cases h

theorem workerGo_aborted_frames (evalReq : Req → Except String (Json × List Json))
    (rssHigh : Nat → Bool) :
    ∀ (reqs : List Req) (i : Nat) (acc : List WFrame), WFrame.restart ∉ acc →
      ∀ fs, workerGo evalReq rssHigh reqs i acc = .aborted fs →
        fs.getLast? = some WFrame.next ∧ WFrame.restart ∉ fs := by
  intro reqs
  induction reqs with
  | nil =>
    intro i acc hacc fs h
    simp only [workerGo] at h
    cases h
  | cons s rest ih =>
    intro i acc hacc fs h
    by_cases he : s = "exit".toList
    · simp only [workerGo, if_pos he] at h
      cases h
    · by_cases hdo : s.take 3 = "do ".toList
      · cases ho : evalReq (s.drop 3) with
        | error m =>
          by_cases hr : rssHigh i
          · simp only [workerGo, if_neg he, if_pos hdo, ho, if_pos hr] at h
            cases h
          · simp only [workerGo, if_neg he, if_pos hdo, ho, if_neg hr] at h
            refine ih _ _ ?_ fs h
            intro hmem
            rcases List.mem_append.mp hmem with hm | hm
            · rcases List.mem_append.mp hm with hm2 | hm2
              · exact hacc hm2
              · simp at hm2
            · simp [errFrame] at hm
        | ok pr =>
          by_cases hcrash : (emitResults pr.1 pr.2).2
          · simp only [workerGo, if_neg he, if_pos hdo, ho, if_pos hcrash] at h
            cases h
          · by_cases hr : rssHigh i
            · simp only [workerGo, if_neg he, if_pos hdo, ho, if_neg hcrash, if_pos hr] at h
              cases h
            · simp only [workerGo, if_neg he, if_pos hdo, ho, if_neg hcrash, if_neg hr] at h
              refine ih _ _ ?_ fs h
              intro hmem
              rcases List.mem_append.mp hmem with hm | hm
              · rcases List.mem_append.mp hm with hm2 | hm2
                · exact hacc hm2
                · simp at hm2
              · exact emitResults_no_restart _ _ hm
      · simp only [workerGo, if_neg he, if_neg hdo] at h
        cases h
        constructor
        · exact List.getLast?_concat _
        · intro hmem
          rcases List.mem_append.mp hmem with hm | hm
          · exact hacc hm
          · simp at hm

theorem workerGo_wire_not_aborted (evalReq : Req → Except String (Json × List Json))
    (rssHigh : Nat → Bool) (dumpPath : AccessorPath → Req) :
    ∀ (msgs : List CMsg) (i : Nat) (acc : List WFrame) (fs : List WFrame),
      workerGo evalReq rssHigh (msgs.map (CMsg.wire dumpPath)) i acc ≠ .aborted fs := by
  intro msgs
  induction msgs with
  | nil =>
    intro i acc fs h
    simp only [List.map_nil, workerGo] at h
    cases h
  | cons msg rest ih =>
    intro i acc fs h
    cases msg with
    | exit =>
      simp only [List.map_cons, CMsg.wire, workerGo, if_pos rfl] at h
      cases h
    | doPath p =>
      have hlit : "do ".toList = ['d', 'o', ' '] := rfl
      have he : CMsg.wire dumpPath (CMsg.doPath p) ≠ "exit".toList := by
        simp only [CMsg.wire, hlit]
        intro hx
        have hde := congrArg (fun l => l.head?) hx
        simp at hde
      have hdo : (CMsg.wire dumpPath (CMsg.doPath p)).take 3 = "do ".toList := by
        simp [CMsg.wire, hlit, List.take]
      simp only [List.map_cons, workerGo, if_neg he, if_pos hdo] at h
      cases ho : evalReq ((CMsg.wire dumpPath (CMsg.doPath p)).drop 3) with
      | error m =>
        rw [ho] at h
        by_cases hr : rssHigh i
        · simp only [if_pos hr] at h
          cases h
        · simp only [if_neg hr] at h
          exact ih _ _ _ h
      | ok pr =>
        rw [ho] at h
        by_cases hcrash : (emitResults pr.1 pr.2).2
        · simp only [if_pos hcrash] at h
          cases h
        · by_cases hr : rssHigh i
          · simp only [if_neg hcrash, if_pos hr] at h
            cases h
          · simp only [if_neg hcrash, if_neg hr] at h
            exact ih _ _ _ h

/-! ## Claim C9 — the final frame of a terminating worker run is restart -/

/-- C9: whenever the worker loop terminates — by receiving the `exit`
request (line 110) or because the sampled maximum RSS exceeded the
threshold after a job (lines 151-156) — the last frame it writes on its
response pipe is `restart` (line 159); in particular a worker asked to
exit still ends with `restart`. -/
theorem c9_last_frame_restart (evalReq : Req → Except String (Json × List Json))
    (rssHigh : Nat → Bool) (reqs : List Req) (fs : List WFrame)
    (h : workerRun evalReq rssHigh reqs = .exited fs ∨
      workerRun evalReq rssHigh reqs = .memExited fs) :
    fs.getLast? = some WFrame.restart :=
  workerGo_terminal_restart evalReq rssHigh reqs 0 [] fs h

/-- Witness for C9: a worker asked to exit immediately writes
`[next, restart]`, and a worker whose RSS is over the threshold after its
first (failing) job writes `[next, {"error":…}, restart]`; both runs end
in `restart`. -/
theorem c9_witness :
    workerRun (fun _ => .error "x") (fun _ => false) ["exit".toList] =
      .exited [WFrame.next, WFrame.restart] ∧
    ([WFrame.next, WFrame.restart].getLast? = some WFrame.restart) ∧
    workerRun (fun _ => .error "x") (fun _ => true) ["do []".toList, "exit".toList] =
      .memExited [WFrame.next, errFrame "x", WFrame.restart] ∧
    ([WFrame.next, errFrame "x", WFrame.restart].getLast? = some WFrame.restart) :=
  ⟨rfl,
   c9_last_frame_restart (fun _ => .error "x") (fun _ => false) ["exit".toList] _ (Or.inl rfl),
   rfl,
   c9_last_frame_restart (fun _ => .error "x") (fun _ => true) ["do []".toList, "exit".toList] _
     (Or.inr rfl)⟩

/-! ## Claim C10 — malformed requests abort; unreachable under well-formed frames -/

/-- C10: if the worker reads a request that is neither the literal
`exit` nor prefixed by `"do "`, it calls `abort()` (line 111) having
written nothing since the preceding `next`: the frame list of an aborted
run ends with `next` and contains no `restart` (and the abort emits no
error frame — the error-frame branch is inside the `do` handler).
Moreover the branch is unreachable when the coordinator only sends
well-formed `CollectMsg` frames, i.e. renderings of `CollectExit`
(`"exit"`) or `CollectDo` (`"do " + path`): such a run never ends in
`aborted`, whatever the path serialization. -/
theorem c10_malformed_aborts_unreachable :
    (∀ (evalReq : Req → Except String (Json × List Json)) (rssHigh : Nat → Bool)
        (reqs : List Req) (fs : List WFrame),
      workerRun evalReq rssHigh reqs = .aborted fs →
        fs.getLast? = some WFrame.next ∧ WFrame.restart ∉ fs) ∧
    (∀ (evalReq : Req → Except String (Json × List Json)) (rssHigh : Nat → Bool)
        (dumpPath : AccessorPath → Req) (msgs : List CMsg) (fs : List WFrame),
      workerRun evalReq rssHigh (msgs.map (CMsg.wire dumpPath)) ≠ .aborted fs) :=
  ⟨fun evalReq rssHigh reqs fs h =>
    workerGo_aborted_frames evalReq rssHigh reqs 0 [] (by simp) fs h,
   fun evalReq rssHigh dumpPath msgs fs h =>
    workerGo_wire_not_aborted evalReq rssHigh dumpPath msgs 0 [] fs h⟩

/-- Witness for C10: the request `bogus` aborts the worker right after
its `next`, with no restart ever written; and the rendered frame list
`[do ["a"], exit]` does not produce an aborted run. -/
theorem c10_witness :
    workerRun (fun _ => .error "x") (fun _ => false) ["bogus".toList] =
      .aborted [WFrame.next] ∧
    ([WFrame.next].getLast? = some WFrame.next ∧ WFrame.restart ∉ [WFrame.next]) ∧
    workerRun (fun _ => .error "x") (fun _ => false)
        (([CMsg.doPath [Accessor.name "a"], CMsg.exit].map
          (CMsg.wire (fun _ => "[\"a\"]".toList)))) ≠
      .aborted [WFrame.next] :=
  ⟨rfl,
   c10_malformed_aborts_unreachable.1 (fun _ => .error "x") (fun _ => false) ["bogus".toList] _ rfl,
   c10_malformed_aborts_unreachable.2 (fun _ => .error "x") (fun _ => false) _ _ _⟩

/-! ## Claim C3 — done is written per result, not once after all results -/

/-- C3: the claim says that for every `do P` request the worker first
emits one response frame per result of `eval(job)` and THEN exactly one
terminating `done` frame after all of them.  In the code the
`writeLine(to.get(), "done")` at line 131 is INSIDE the
`for (auto & res : job->eval(state))` loop, so `done` is written after
EVERY result.  At the failing input — a `Drvs` job with two derivations
(possible through `recurseForDerivations`, src/job.hh line 46), walked
for the request `do ["a"]` and followed by `exit` — the worker writes
`next, reply(d1), done, reply(d2), done, next, restart`: two `done`
frames for the one request (while `eval(job)` has two results), and the
second result frame arrives after the first `done`.  The coordinator in
the same file treats `done` as the terminator of the whole response
stream (`saveProc`, lines 296-298), so it re-enters `wait_for_worker`
where the second reply parses as an empty-detail `WorkError` (fourth
conjunct) and the `HandleWork.error` lambda throws (fifth conjunct): the
worker's own consumer cannot survive this framing. -/
theorem c3_done_emitted_per_result :
    workerRun oracleC3 (fun _ => false) ["do [\"a\"]".toList, "exit".toList] =
      .exited [WFrame.next,
        .jfr (.obj [("path", .arr [.str "a"]), ("name", .str "d1"),
          ("system", .str "x86_64-linux"), ("drvPath", .str "/nix/store/d1.drv"),
          ("outputs", .obj [("out", .str "/nix/store/d1-out")])]),
        WFrame.done,
        .jfr (.obj [("path", .arr [.str "a"]), ("name", .str "d2"),
          ("system", .str "x86_64-linux"), ("drvPath", .str "/nix/store/d2.drv"),
          ("outputs", .obj [("out", .str "/nix/store/d2-out")])]),
        WFrame.done, WFrame.next, WFrame.restart] ∧
    jobC3.eval.length = 2 ∧
    countDone (framesOf (workerRun oracleC3 (fun _ => false)
      ["do [\"a\"]".toList, "exit".toList])) = 2 ∧
    parseWorkMsg (.jfr (.obj [("path", .arr [.str "a"]), ("name", .str "d2"),
        ("system", .str "x86_64-linux"), ("drvPath", .str "/nix/store/d2.drv"),
        ("outputs", .obj [("out", .str "/nix/store/d2-out")])])) =
      .ok (.errorW "") ∧
    waitForWorkerStep (.errorW "") = .fatalW ("worker error: " ++ "") :=
  ⟨rfl, rfl, rfl, rfl, rfl⟩

/-! ## Claim C1 — per-path EvalError: worker continues, but the run aborts -/

/-- C1, counterexample: at spec scenario 4 (`a = throw "boom"` next to a
good derivation `b`) the worker does emit a single error frame for
`["a"]` and goes on to evaluate `["b"]` (first conjunct) — but when the
coordinator, which leased `["a"]` and is in await_responses, receives
that error frame, its `.error` handler throws (lines 299-301), the
outermost catch stores the exception in `exc` (lines 315-319), and
`main` re-raises it after the joins (lines 449-452), so the process does
NOT exit 0: the claim's "the run as a whole is not aborted" is false
(second and third conjuncts). -/
theorem c1_error_frame_aborts_run :
    workerRun oracleC1 (fun _ => false)
        ["do [\"a\"]".toList, "do [\"b\"]".toList, "exit".toList] =
      .exited [WFrame.next, errFrame "error: boom", WFrame.next,
        .jfr (.obj [("path", .arr [.str "b"]), ("name", .str "b"),
          ("system", .str "x86_64-linux"), ("drvPath", .str "/nix/store/b.drv"),
          ("outputs", .obj [("out", .str "/nix/store/b-out")])]),
        WFrame.done, WFrame.next, WFrame.restart] ∧
    awaitResponsesStep (WorkJob.errorMsg "error: boom")
        ⟨[[Accessor.name "b"]], [[Accessor.name "a"]], false⟩ =
      .fatal ("worker error: " ++ "error: boom") ∧
    (collectorCatch (WorkJob.errorMsg "error: boom")
        ⟨[[Accessor.name "b"]], [[Accessor.name "a"]], false⟩).1.exc = true :=
  ⟨rfl, rfl, rfl⟩

/-- C1, amended: for every path whose evaluation raises an `EvalError`,
the worker emits exactly one `{"error":msg}` frame and continues with the
next request (first conjunct: the loop iteration appends
`[next, {"error":msg}]` and recurses); but the coordinator's handling of
any error frame is fatal: `awaitResponsesStep` throws
`worker error: msg`, and the collector's catch sets `exc` (and notifies)
and ends the thread, so the run as a whole IS aborted and the process
exit code is non-zero (second conjunct). -/
theorem c1_worker_error_single_frame_but_fatal :
    (∀ (evalReq : Req → Except String (Json × List Json)) (rssHigh : Nat → Bool)
        (s : Req) (rest : List Req) (i : Nat) (acc : List WFrame) (m : String),
      s.take 3 = "do ".toList → evalReq (s.drop 3) = .error m → rssHigh i = false →
      workerGo evalReq rssHigh (s :: rest) i acc =
        workerGo evalReq rssHigh rest (i + 1) (acc ++ [WFrame.next, errFrame m])) ∧
    (∀ (m : String) (s : SchedState),
      awaitResponsesStep (WorkJob.errorMsg m) s = .fatal ("worker error: " ++ m) ∧
      (collectorCatch (WorkJob.errorMsg m) s).1.exc = true ∧
      (collectorCatch (WorkJob.errorMsg m) s).2.2 = none) := by
  constructor
  · intro evalReq rssHigh s rest i acc m hdo ho hr
    have he : ¬ s = "exit".toList := by
      intro hx
      rw [hx] at hdo
      simp at hdo
    simp only [workerGo, if_neg he, if_pos hdo, ho, hr]
    simp [List.append_assoc]
  · intro m s
    exact ⟨rfl, rfl, rfl⟩

/-- Witness for C1 (amended) at the scenario-4 inputs. -/
theorem c1_witness :
    workerGo oracleC1 (fun _ => false) ["do [\"a\"]".toList, "exit".toList] 0 [] =
      workerGo oracleC1 (fun _ => false) ["exit".toList] 1
        [WFrame.next, errFrame "error: boom"] ∧
    (collectorCatch (WorkJob.errorMsg "error: boom") ⟨[], [[Accessor.name "a"]], false⟩).1.exc =
      true :=
  ⟨c1_worker_error_single_frame_but_fatal.1 oracleC1 (fun _ => false)
      "do [\"a\"]".toList ["exit".toList] 0 [] "error: boom" rfl rfl rfl,
   (c1_worker_error_single_frame_but_fatal.2 "error: boom"
      ⟨[], [[Accessor.name "a"]], false⟩).2.1⟩

/-! ## Claim C7 — todo and active are disjoint in every reachable state -/

theorem schedInv_init (accs : List Accessor) : SchedInv (initGState accs) := by
  constructor
  · intro p hp hpa
    simp [initGState] at hpa
  · intro p a hp
    rcases hp with hp | hp | hp
    · rcases mem_foldl_insertP.mp hp with hp0 | ⟨c, _, hc⟩
      · simp at hp0
      · have : p = [] ∧ a = c := by
          have hc' : p ++ [a] = [] ++ [c] := by simpa using hc
          exact concat_singleton_inj hc'
        simp [initGState, this.1]
    · simp [initGState] at hp
    · simp [initGState] at hp
  · intro p hp
    simp [initGState] at hp
  · intro p hp hpe
    rcases mem_foldl_insertP.mp hp with hp0 | ⟨c, _, hc⟩
    · simp at hp0
    · simp [initGState] at hpe
      rw [hpe] at hc
      simp at hc
  · intro p hp
    simp [initGState] at hp
  · exact List.nodup_nil
  · intro p a hp
    simp [initGState] at hp
  · exact nodup_foldl_insertP List.nodup_nil
  · exact List.nodup_nil

theorem schedInv_step {s t : GState} (hs : SchedInv s) (st : SchedStep s t) : SchedInv t := by
  cases st with
  | lease p hp ht =>
    subst ht
    constructor
    · intro q hq hqa
      have hq' := (hs.todoNodup.mem_erase_iff).mp hq
      rcases mem_insertP.mp hqa with rfl | hqa'
      · exact hq'.1 rfl
      · exact hs.ta q hq'.2 hqa'
    · intro q a hq
      rcases hq with hq | hq | hq
      · exact hs.disc q a (Or.inl (List.mem_of_mem_erase hq))
      · rcases mem_insertP.mp hq with hq' | hq'
        · exact hs.disc q a (Or.inl (hq' ▸ hp))
        · exact hs.disc q a (Or.inr (Or.inl hq'))
      · exact hs.disc q a (Or.inr (Or.inr hq))
    · intro q hq
      rcases List.mem_cons.mp hq with rfl | hq'
      · exact hs.todoNotExp q hp
      · exact hs.heldNotExp q hq'
    · intro q hq
      exact hs.todoNotExp q (List.mem_of_mem_erase hq)
    · intro q hq hqt
      rcases List.mem_cons.mp hq with rfl | hq'
      · exact hs.todoNodup.not_mem_erase hqt
      · exact hs.heldNotTodo q hq' (List.mem_of_mem_erase hqt)
    · refine List.nodup_cons.mpr ⟨?_, hs.heldNodup⟩
      intro hph
      exact hs.heldNotTodo p hph hp
    · intro q a hq
      rcases List.mem_cons.mp hq with heq | hq'
      · exact hs.disc q a (Or.inl (heq ▸ hp))
      · exact hs.heldParentExp q a hq'
    · exact hs.todoNodup.erase p
    · exact nodup_insertP hs.activeNodup
  | drvErase q ht =>
    subst ht
    constructor
    · intro x hx hxa
      exact hs.ta x hx (List.mem_of_mem_erase hxa)
    · intro x a hx
      rcases hx with hx | hx | hx
      · exact hs.disc x a (Or.inl hx)
      · exact hs.disc x a (Or.inr (Or.inl (List.mem_of_mem_erase hx)))
      · exact hs.disc x a (Or.inr (Or.inr hx))
    · exact hs.heldNotExp
    · exact hs.todoNotExp
    · exact hs.heldNotTodo
    · exact hs.heldNodup
    · exact hs.heldParentExp
    · exact hs.todoNodup
    · exact hs.activeNodup.erase q
  | childrenStep p cs hp ht =>
    subst ht
    have hpe : p ∉ s.expanded := hs.heldNotExp p hp
    constructor
    · intro x hx hxa
      rcases mem_foldl_insertP.mp hx with hx' | ⟨c, _, rfl⟩
      · exact hs.ta x hx' hxa
      · exact hpe (hs.disc p c (Or.inr (Or.inl hxa)))
    · intro x a hx
      rcases hx with hx | hx | hx
      · rcases mem_foldl_insertP.mp hx with hx' | ⟨c, _, hc⟩
        · exact mem_insertP.mpr (Or.inr (hs.disc x a (Or.inl hx')))
        · have := concat_singleton_inj hc
          exact mem_insertP.mpr (Or.inl this.1)
      · exact mem_insertP.mpr (Or.inr (hs.disc x a (Or.inr (Or.inl hx))))
      · rcases mem_insertP.mp hx with heq | hx'
        · exact mem_insertP.mpr (Or.inr (hs.heldParentExp x a (heq ▸ hp)))
        · exact mem_insertP.mpr (Or.inr (hs.disc x a (Or.inr (Or.inr hx'))))
    · intro q hq hqe
      have hq' : q ∈ s.held := List.mem_of_mem_erase hq
      rcases mem_insertP.mp hqe with rfl | hqe'
      · exact hs.heldNodup.not_mem_erase hq
      · exact hs.heldNotExp q hq' hqe'
    · intro x hx hxe
      rcases mem_foldl_insertP.mp hx with hx' | ⟨c, _, rfl⟩
      · rcases mem_insertP.mp hxe with rfl | hxe'
        · exact hs.heldNotTodo x hp hx'
        · exact hs.todoNotExp x hx' hxe'
      · rcases mem_insertP.mp hxe with heq | hxe'
        · have := congrArg List.length heq
          simp at this
        · exact hpe (hs.disc p c (Or.inr (Or.inr hxe')))
    · intro q hq hqt
      have hq' : q ∈ s.held := List.mem_of_mem_erase hq
      rcases mem_foldl_insertP.mp hqt with hqt' | ⟨c, _, rfl⟩
      · exact hs.heldNotTodo q hq' hqt'
      · exact hpe (hs.heldParentExp p c hq')
    · exact hs.heldNodup.erase p
    · intro q a hq
      exact mem_insertP.mpr (Or.inr (hs.heldParentExp q a (List.mem_of_mem_erase hq)))
    · exact nodup_foldl_insertP hs.todoNodup
    · exact hs.activeNodup
  | doneStep p hp ht =>
    subst ht
    constructor
    · exact hs.ta
    · exact hs.disc
    · intro q hq
      exact hs.heldNotExp q (List.mem_of_mem_erase hq)
    · exact hs.todoNotExp
    · intro q hq
      exact hs.heldNotTodo q (List.mem_of_mem_erase hq)
    · exact hs.heldNodup.erase p
    · intro q a hq
      exact hs.heldParentExp q a (List.mem_of_mem_erase hq)
    · exact hs.todoNodup
    · exact hs.activeNodup

theorem schedInv_reachable {s t : GState} (hs : SchedInv s)
    (h : Relation.ReflTransGen SchedStep s t) : SchedInv t := by
  induction h with
  | refl => exact hs
  | tail _ st ih => exact schedInv_step ih st

/-- C7: in every state reachable from the seeded initial state under the
lock-protected transitions of the collector (leasing, the drv handler's
erase, children insertion, done), the sets `todo` and `active` are
disjoint; moreover a coordinator holding `p` only ever inserts children
`p ++ [c]` that are NOT currently in `active`, and leasing moves a path
from `todo` into `active` in one critical section (the `lease`
transition itself).  The inductive strengthening (`SchedInv`) records
why: a path is discovered only after its parent expanded, and expanded
paths are never re-held or re-queued. -/
theorem c7_todo_active_disjoint (accs : List Accessor) (s : GState)
    (h : Relation.ReflTransGen SchedStep (initGState accs) s) :
    (∀ p, p ∈ s.todo → p ∉ s.active) ∧
    (∀ p c, p ∈ s.held → p ++ [c] ∉ s.active) := by
  have hinv := schedInv_reachable (schedInv_init accs) h
  refine ⟨hinv.ta, ?_⟩
  intro p c hp hmem
  exact hinv.heldNotExp p hp (hinv.disc p c (Or.inr (Or.inl hmem)))

/-- Witness for C7: after seeding with the top-level children `a`, `b`
and leasing `["b"]`, the path `["a"]` is still queued and not active, and
the held path `["b"]` has no child in `active`. -/
theorem c7_witness :
    ([Accessor.name "a"] ∈
      (⟨[[Accessor.name "a"]], [[Accessor.name "b"]], [[]], [[Accessor.name "b"]]⟩ :
        GState).todo) ∧
    ([Accessor.name "a"] ∉
      (⟨[[Accessor.name "a"]], [[Accessor.name "b"]], [[]], [[Accessor.name "b"]]⟩ :
        GState).active) ∧
    ([Accessor.name "b"] ++ [Accessor.name "c"] ∉
      (⟨[[Accessor.name "a"]], [[Accessor.name "b"]], [[]], [[Accessor.name "b"]]⟩ :
        GState).active) := by
  have hreach : Relation.ReflTransGen SchedStep
      (initGState [Accessor.name "a", Accessor.name "b"])
      (⟨[[Accessor.name "a"]], [[Accessor.name "b"]], [[]], [[Accessor.name "b"]]⟩ : GState) :=
    Relation.ReflTransGen.single
      (SchedStep.lease _ _ [Accessor.name "b"] (by decide) (by decide))
  have h := c7_todo_active_disjoint [Accessor.name "a", Accessor.name "b"] _ hreach
  exact ⟨by decide, h.1 _ (by decide), h.2 _ (Accessor.name "c") (by decide)⟩
